import Mathlib

/-!
Shallow embedding of modules/prediction/evaluator/vehicle/mlp_evaluator.cc
(`apollo::prediction::MLPEvaluator`) and proofs about its behaviour.

C++ `double` values are modelled as real numbers.  Protobuf messages are
modelled as Lean structures; optional submessages become `Option` fields;
`repeated` fields become lists.  Out-of-range `std::vector::operator[]`
reads (undefined behaviour in C++) are modelled by `List.getD` with
default `0`; every theorem that touches such a read is independent of the
value actually returned.
-/

set_option maxHeartbeats 1000000

namespace MLPEval

/-- Lane-relative measurements of one history record
(`feature.lane().lane_feature()`). -/
structure LaneFeatureProto where
  angle_diff : ℝ
  lane_l : ℝ
  dist_to_left_boundary : ℝ
  dist_to_right_boundary : ℝ
  lane_turn_type : ℤ

/-- One sampled point along a lane (`LanePoint` proto). -/
structure LanePoint where
  position : Option (ℝ × ℝ)
  relative_l : ℝ
  heading : ℝ
  angle_diff : ℝ

/-- One lane segment of a hypothesis (`LaneSegment` proto). -/
structure LaneSegment where
  lane_point : List LanePoint

/-- One candidate lane-sequence hypothesis (`LaneSequence` proto). -/
structure LaneSequence where
  lane_segment : List LaneSegment

/-- The lane graph of an obstacle (`LaneGraph` proto). -/
structure LaneGraph where
  lane_sequence : List LaneSequence

/-- Lane association of a feature (`Lane` proto): optional per-record lane
feature and optional lane graph. -/
structure Lane where
  lane_feature : Option LaneFeatureProto
  lane_graph : Option LaneGraph

/-- One timestamped history record (`Feature` proto).  `isInitialized`
models `Feature::IsInitialized()`. -/
structure Feature where
  isInitialized : Bool
  timestamp : ℝ
  position : Option (ℝ × ℝ)
  theta : ℝ
  t_velocity_heading : ℝ
  speed : ℝ
  t_speed : ℝ
  lane : Option Lane

/-- Read-only view of a tracked obstacle.  The accessors `id()`,
`timestamp()`, `latest_feature()` and the indexed history `feature(i)`
(newest first) belong to the external tracking subsystem (obstacle.h is
not part of the sources) and are modelled as independent fields. -/
structure Obstacle where
  id : ℤ
  timestamp : ℝ
  latest_feature : Feature
  history : List Feature

/-- Modelled from the spec: `OBSTACLE_FEATURE_SIZE` is declared in
mlp_evaluator.h, which is not part of the sources; the spec fixes the
object block arity at 14. -/
def OBSTACLE_FEATURE_SIZE : ℕ := 14

/-- Modelled from the spec: `apollo::common::math::DoubleCompare`
(modules/common/math, not part of the sources) three-way compares two
doubles; the spec reads the history guard as plain ordering ("stopping at
the first record whose timestamp is older than ..."). -/
noncomputable def DoubleCompare (a b : ℝ) : ℤ :=
  if b < a then 1 else if a < b then -1 else 0

/-- Mathematical model of `std::atan2` (external library function). -/
noncomputable def atan2 (y x : ℝ) : ℝ :=
  if 0 < x then Real.arctan (y / x)
  else if x < 0 ∧ 0 ≤ y then Real.arctan (y / x) + Real.pi
  else if x < 0 ∧ y < 0 then Real.arctan (y / x) - Real.pi
  else if x = 0 ∧ 0 < y then Real.pi / 2
  else if x = 0 ∧ y < 0 then -(Real.pi / 2)
  else 0

/-! ### SetLaneFeatureValues (mlp_evaluator.cc lines 200-251)

The lane block arity `LANE_FEATURE_SIZE` is declared in mlp_evaluator.h,
which is not part of the sources; the spec only fixes it as a constant L
that is a multiple of 4, so it is kept as an explicit parameter `L`. -/

/-- Inner loop of `SetLaneFeatureValues` over the points of one segment:
before each point the accumulated size is checked against L (break),
points without a position are skipped (continue), every other point
appends its 4-tuple. -/
noncomputable def pointLoop (L : ℕ) (pos : ℝ × ℝ) (heading : ℝ) :
    List LanePoint → List ℝ → List ℝ
  | [], acc => acc
  | p :: rest, acc =>
    if L ≤ acc.length then acc
    else
      match p.position with
      | none => pointLoop L pos heading rest acc
      | some pp =>
        pointLoop L pos heading rest
          (acc ++ [Real.sin (atan2 (pp.1 - pos.1) (pp.2 - pos.2) - heading),
                   p.relative_l, p.heading, p.angle_diff])

/-- Outer loop of `SetLaneFeatureValues` over the segments of the
hypothesis, with the same size check before each segment. -/
noncomputable def segLoop (L : ℕ) (pos : ℝ × ℝ) (heading : ℝ) :
    List LaneSegment → List ℝ → List ℝ
  | [], acc => acc
  | s :: rest, acc =>
    if L ≤ acc.length then acc
    else segLoop L pos heading rest (pointLoop L pos heading s.lane_point acc)

/-- Padding loop of `SetLaneFeatureValues` (lines 239-250): while the size
is at least 4 and below L, re-append the last four stored values. -/
noncomputable def padLoop (L : ℕ) (vals : List ℝ) : List ℝ :=
  if h : 4 ≤ vals.length ∧ vals.length < L then
    padLoop L (vals ++ [vals.getD (vals.length - 4) 0, vals.getD (vals.length - 3) 0,
      vals.getD (vals.length - 2) 0, vals.getD (vals.length - 1) 0])
  else vals
termination_by L - vals.length
decreasing_by
  simp only [List.length_append, List.length_cons, List.length_nil]
  omega

/-- `MLPEvaluator::SetLaneFeatureValues` (lines 200-251). -/
noncomputable def setLaneFeatureValues (kf : Bool) (L : ℕ) (ob : Obstacle)
    (seq : LaneSequence) : List ℝ :=
  let feature := ob.latest_feature
  if feature.isInitialized = false then []
  else
    match feature.position with
    | none => []
    | some pos =>
      let heading := if kf then feature.t_velocity_heading else feature.theta
      padLoop L (segLoop L pos heading seq.lane_segment [])

/-! ### SetObstacleFeatureValues (mlp_evaluator.cc lines 106-198) -/

/-- One usable windowed history record as collected by the history walk of
`SetObstacleFeatureValues` (lines 121-145): the parallel series pushed into
`thetas`, `lane_ls`, `dist_lbs`, `dist_rbs`, `lane_types`, `speeds` and
`timestamps` are recovered from this list by projection. -/
structure ObsRecord where
  theta : ℝ
  lane_l : ℝ
  dist_lb : ℝ
  dist_rb : ℝ
  lane_type : ℤ
  speed : ℝ
  ts : ℝ

/-- History walk of `SetObstacleFeatureValues` (lines 121-145): skip
uninitialized records, break at the first record older than the window
start, collect records carrying a lane feature; the speed comes from the
filtered (`t_speed`) or raw (`speed`) field per the tracking flag. -/
noncomputable def collectRecords (kf : Bool) (duration : ℝ) : List Feature → List ObsRecord
  | [] => []
  | f :: rest =>
    if f.isInitialized = false then collectRecords kf duration rest
    else if DoubleCompare f.timestamp duration < 0 then []
    else
      match f.lane with
      | none => collectRecords kf duration rest
      | some ln =>
        match ln.lane_feature with
        | none => collectRecords kf duration rest
        | some lf =>
          { theta := lf.angle_diff
            lane_l := lf.lane_l
            dist_lb := lf.dist_to_left_boundary
            dist_rb := lf.dist_to_right_boundary
            lane_type := lf.lane_turn_type
            speed := if kf then f.t_speed else f.speed
            ts := f.timestamp } :: collectRecords kf duration rest

/-- `MLPEvaluator::SetObstacleFeatureValues` (lines 106-198).  The
`lane_types` series is collected by the source but never used (its four
consumers are commented out, lines 190-197). -/
noncomputable def setObstacleFeatureValues (kf : Bool) (predDur : ℝ) (ob : Obstacle) :
    List ℝ :=
  let duration := ob.timestamp - predDur
  let recs := collectRecords kf duration ob.history
  let thetas := recs.map (fun r => r.theta)
  let lane_ls := recs.map (fun r => r.lane_l)
  let dist_lbs := recs.map (fun r => r.dist_lb)
  let dist_rbs := recs.map (fun r => r.dist_rb)
  let speeds := recs.map (fun r => r.speed)
  let timestamps := recs.map (fun r => r.ts)
  if recs.length ≤ 0 then []
  else
    let theta_mean := thetas.foldl (· + ·) 0 / (thetas.length : ℝ)
    let theta_filtered :=
      if 1 < thetas.length then (thetas.getD 0 0 + thetas.getD 1 0) / 2 else thetas.getD 0 0
    let lane_l_mean := lane_ls.foldl (· + ·) 0 / (lane_ls.length : ℝ)
    let lane_l_filtered :=
      if 1 < lane_ls.length then (lane_ls.getD 0 0 + lane_ls.getD 1 0) / 2
      else lane_ls.getD 0 0
    let speed_mean := speeds.foldl (· + ·) 0 / (speeds.length : ℝ)
    let speed_lateral := Real.sin theta_filtered * speed_mean
    let speed_sign : ℝ := if 0 < speed_lateral then 1 else -1
    let time_to_lb :=
      if 0.05 < |speed_lateral| then dist_lbs.getD 0 0 / speed_lateral
      else 20 * dist_lbs.getD 0 0 * speed_sign
    let time_to_rb :=
      if 0.05 < |speed_lateral| then -1 * dist_rbs.getD 0 0 / speed_lateral
      else -20 * dist_rbs.getD 0 0 * speed_sign
    let time_diff := timestamps.getD 0 0 - timestamps.getLastD 0
    let dist_lb_rate :=
      if 1 < timestamps.length then (dist_lbs.getD 0 0 - dist_lbs.getLastD 0) / time_diff
      else 0
    let dist_rb_rate :=
      if 1 < timestamps.length then (dist_rbs.getD 0 0 - dist_rbs.getLastD 0) / time_diff
      else 0
    [theta_filtered, theta_mean, theta_filtered - theta_mean,
     if 1 < thetas.length then thetas.getD 0 0 - thetas.getD 1 0 else thetas.getD 0 0,
     lane_l_filtered, lane_l_mean, lane_l_filtered - lane_l_mean,
     speed_mean,
     dist_lbs.getD 0 0, dist_lb_rate, time_to_lb,
     dist_rbs.getD 0 0, dist_rb_rate, time_to_rb]

/-! ### The network model and ComputeProbability (mlp_evaluator.cc lines 268-324) -/

/-- One layer of the `FnnVehicleModel` proto: `layer_input_weight` is read as
`rows(row).columns(col)`, `layer_bias` as `columns(col)`. -/
structure Layer where
  layer_input_dim : ℕ
  layer_output_dim : ℕ
  layer_input_weight : List (List ℝ)
  layer_bias : List ℝ
  layer_activation_type : String

/-- Default layer value used for the (never exercised in well-formed models)
out-of-range `layer(i)` proto access. -/
def dummyLayer : Layer :=
  { layer_input_dim := 0, layer_output_dim := 0, layer_input_weight := [],
    layer_bias := [], layer_activation_type := "" }

/-- The `FnnVehicleModel` proto: declared input dimension, declared layer
count, layers, and per-input normalization statistics (`samples_mean` and
`samples_std`, each read as `columns(i)`). -/
structure FnnVehicleModel where
  dim_input : ℕ
  num_layer : ℕ
  layer : List Layer
  samples_mean : List ℝ
  samples_std : List ℝ

/-- Modelled from the spec: `apollo::prediction::util::Normalize`
(prediction_util.cc is not part of the sources) replaces a raw value with
`(raw - mean) / std`. -/
noncomputable def Normalize (v mean std : ℝ) : ℝ := (v - mean) / std

/-- Modelled from the spec: `apollo::prediction::util::Relu`
(prediction_util.cc is not part of the sources); `relu(x) = max(0, x)`. -/
noncomputable def Relu (x : ℝ) : ℝ := max 0 x

/-- Modelled from the spec: `apollo::prediction::util::Sigmoid`
(prediction_util.cc is not part of the sources);
`sigmoid(x) = 1 / (1 + exp(-x))`. -/
noncomputable def Sigmoid (x : ℝ) : ℝ := 1 / (1 + Real.exp (-x))

/-- Activation dispatch of `ComputeProbability` (lines 300-311): "relu",
"sigmoid", "tanh", and the logged sigmoid fallback for any other string. -/
noncomputable def applyActivation (t : String) (x : ℝ) : ℝ :=
  if t = "relu" then Relu x
  else if t = "sigmoid" then Sigmoid x
  else if t = "tanh" then Real.tanh x
  else Sigmoid x

/-- Pre-activation value of one neuron (lines 295-299):
`bias[col]` plus the row loop accumulating `layer_input[row] * weight[row][col]`.
A read of `layer_input[row]` beyond the vector's size is undefined behaviour
in the C++ source and is modelled as the default value 0. -/
noncomputable def preActivation (layer_input : List ℝ) (ly : Layer) (col : ℕ) : ℝ :=
  (List.range ly.layer_input_dim).foldl
    (fun acc row =>
      acc + layer_input.getD row 0 * ((ly.layer_input_weight.getD row []).getD col 0))
    (ly.layer_bias.getD col 0)

/-- Activated output of one neuron (lines 294-312). -/
noncomputable def layerNeuron (layer_input : List ℝ) (ly : Layer) (col : ℕ) : ℝ :=
  applyActivation ly.layer_activation_type (preActivation layer_input ly col)

/-- Layer loop of `ComputeProbability` (lines 288-314), exactly as written in
the source: for every layer index `i > 0` the statement
`layer_input.clear(); layer_output.swap(layer_output);` clears `layer_input`
and swaps `layer_output` with itself (a no-op), so `layer_input` stays empty
from the second layer on and `layer_output` accumulates every layer's
columns.  The state is the pair `(layer_input, layer_output)`. -/
noncomputable def runLayers (m : FnnVehicleModel) (input0 : List ℝ) : List ℝ :=
  ((List.range m.num_layer).foldl
    (fun (st : List ℝ × List ℝ) i =>
      let layer_input := if 0 < i then [] else st.1
      let ly := m.layer.getD i dummyLayer
      (layer_input,
       st.2 ++ (List.range ly.layer_output_dim).map (fun col => layerNeuron layer_input ly col)))
    (input0, ([] : List ℝ))).2

/-- `MLPEvaluator::ComputeProbability` (lines 268-324), as a function of the
loaded model and the assembled `feature_values_` vector (the null-model
`CHECK` is a trusted-caller invariant and the model is passed by value). -/
noncomputable def computeProbability (m : FnnVehicleModel) (feature_values : List ℝ) : ℝ :=
  if m.dim_input ≠ feature_values.length then 0
  else
    let layer_input := (List.range m.dim_input).map
      (fun i => Normalize (feature_values.getD i 0) (m.samples_mean.getD i 0)
        (m.samples_std.getD i 0))
    let layer_output := runLayers m layer_input
    if layer_output.length ≠ 1 then 0 else layer_output.getD 0 0

/-- Modelled from the spec: the intended layer propagation of spec section 4.4
— each layer's n-length output vector becomes the input vector of the next
layer, and the last layer's single activated scalar is returned (0 when the
input-dimension check or the single-output postcondition fails).  Declared
only for comparison with `computeProbability`, which embeds the source. -/
noncomputable def forwardPassSpec (m : FnnVehicleModel) (feature_values : List ℝ) : ℝ :=
  if m.dim_input ≠ feature_values.length then 0
  else
    let input0 := (List.range m.dim_input).map
      (fun i => Normalize (feature_values.getD i 0) (m.samples_mean.getD i 0)
        (m.samples_std.getD i 0))
    let final := (List.range m.num_layer).foldl
      (fun inp i =>
        let ly := m.layer.getD i dummyLayer
        (List.range ly.layer_output_dim).map (fun col => layerNeuron inp ly col))
      input0
    if final.length ≠ 1 then 0 else final.getD 0 0

/-! ### Evaluator state, ExtractFeatureValues and Evaluate
(mlp_evaluator.cc lines 29-104) -/

/-- Mutable per-instance state of `MLPEvaluator`: the per-object feature
cache `obstacle_feature_values_map_` (modelled as an association list) and
the scratch vector `feature_values_`. -/
structure EvaluatorState where
  obstacle_feature_values_map : List (ℤ × List ℝ)
  feature_values : List ℝ

/-- Lookup in the feature cache (`obstacle_feature_values_map_.find(id)`). -/
def mapFind (m : List (ℤ × List ℝ)) (id : ℤ) : Option (List ℝ) :=
  (m.find? (fun e => e.1 == id)).map (fun e => e.2)

/-- `MLPEvaluator::Clear` (lines 29-31): empties the feature cache. -/
def clearState (s : EvaluatorState) : EvaluatorState :=
  { s with obstacle_feature_values_map := [] }

/-- `MLPEvaluator::ExtractFeatureValues` (lines 72-104): clear the scratch
vector, take the object block from the cache when present and recompute it
otherwise, bail out (leaving the scratch vector empty) unless the object
block has length `OBSTACLE_FEATURE_SIZE` and the lane block has length `L`,
and otherwise store the lane block concatenated with itself.  No branch
writes to the cache. -/
noncomputable def extractFeatureValues (kf : Bool) (L : ℕ) (predDur : ℝ) (ob : Obstacle)
    (seq : LaneSequence) (s : EvaluatorState) : EvaluatorState :=
  let s1 : EvaluatorState := { s with feature_values := [] }
  let obstacle_feature_values :=
    match mapFind s1.obstacle_feature_values_map ob.id with
    | none => setObstacleFeatureValues kf predDur ob
    | some cached => cached
  if obstacle_feature_values.length ≠ OBSTACLE_FEATURE_SIZE then s1
  else
    let lane_feature_values := setLaneFeatureValues kf L ob seq
    if lane_feature_values.length ≠ L then s1
    else { s1 with feature_values := lane_feature_values ++ lane_feature_values }

/-- Variant of `extractFeatureValues` that always recomputes the object
block, never consulting the cache.  Declared only to state that, with an
empty cache, `extractFeatureValues` recomputes the object block afresh. -/
noncomputable def extractFresh (kf : Bool) (L : ℕ) (predDur : ℝ) (ob : Obstacle)
    (seq : LaneSequence) (s : EvaluatorState) : EvaluatorState :=
  let s1 : EvaluatorState := { s with feature_values := [] }
  let obstacle_feature_values := setObstacleFeatureValues kf predDur ob
  if obstacle_feature_values.length ≠ OBSTACLE_FEATURE_SIZE then s1
  else
    let lane_feature_values := setLaneFeatureValues kf L ob seq
    if lane_feature_values.length ≠ L then s1
    else { s1 with feature_values := lane_feature_values ++ lane_feature_values }

/-- Observable actions of one `Evaluate` call: a per-hypothesis
`ExtractFeatureValues` call (with the hypothesis index), or an invocation of
the Forward-Pass Engine (`ComputeProbability`). -/
inductive EvalAction where
  | extractCall (seqIndex : ℕ)
  | forwardPassCall
deriving DecidableEq

/-- Decides whether a trace contains a Forward-Pass Engine invocation. -/
def hasForwardPass : List EvalAction → Bool
  | [] => false
  | EvalAction.forwardPassCall :: _ => true
  | _ :: rest => hasForwardPass rest

/-- `MLPEvaluator::Evaluate` (lines 33-70): clear the cache first, then
return with no per-hypothesis action when the obstacle pointer is null, its
latest feature is uninitialized, it has no lane, no lane graph, or zero lane
sequences; otherwise call `ExtractFeatureValues` for every lane sequence in
order.  The returned trace lists the per-hypothesis actions; the loop body
of the source calls only `ExtractFeatureValues` (it never calls
`ComputeProbability`). -/
noncomputable def evaluateRun (kf : Bool) (L : ℕ) (predDur : ℝ)
    (obOpt : Option Obstacle) (s : EvaluatorState) : EvaluatorState × List EvalAction :=
  let s1 := clearState s
  match obOpt with
  | none => (s1, [])
  | some ob =>
    if ob.latest_feature.isInitialized = false then (s1, [])
    else
      match ob.latest_feature.lane with
      | none => (s1, [])
      | some lane =>
        match lane.lane_graph with
        | none => (s1, [])
        | some graph =>
          if graph.lane_sequence.length = 0 then (s1, [])
          else
            (graph.lane_sequence.foldl
               (fun st seq => extractFeatureValues kf L predDur ob seq st) s1,
             (List.range graph.lane_sequence.length).map EvalAction.extractCall)

/-- States of the evaluator reachable from construction (the C++ member map
and scratch vector are default-constructed empty) through any sequence of
its mutating operations. -/
inductive Reachable : EvaluatorState → Prop where
  | init : Reachable { obstacle_feature_values_map := [], feature_values := [] }
  | clear {s : EvaluatorState} : Reachable s → Reachable (clearState s)
  | evaluate {s : EvaluatorState} (kf : Bool) (L : ℕ) (predDur : ℝ)
      (obOpt : Option Obstacle) :
      Reachable s → Reachable (evaluateRun kf L predDur obOpt s).1
  | extract {s : EvaluatorState} (kf : Bool) (L : ℕ) (predDur : ℝ)
      (ob : Obstacle) (seq : LaneSequence) :
      Reachable s → Reachable (extractFeatureValues kf L predDur ob seq s)

/-! ### Helpers for stating lane-point visitation claims -/

/-- The stream of lane points of a hypothesis in visitation order
(segment by segment, point by point). -/
def flattenPoints : List LaneSegment → List LanePoint
  | [] => []
  | s :: rest => s.lane_point ++ flattenPoints rest

/-- Number of visitable points (points carrying a position) in a stream. -/
def visCount : List LanePoint → ℕ
  | [] => 0
  | p :: rest => (if p.position.isSome then 1 else 0) + visCount rest

/-- Prefix of a point stream up to and including the k-th visitable point
(positionless points before it included, nothing after it). -/
def takeVisitable (k : ℕ) : List LanePoint → List LanePoint
  | [] => []
  | p :: rest =>
    if k = 0 then []
    else
      match p.position with
      | some _ => p :: takeVisitable (k - 1) rest
      | none => p :: takeVisitable k rest

/-- Remainder of a point stream after its first k visitable points. -/
def dropVisitable (k : ℕ) : List LanePoint → List LanePoint
  | [] => []
  | p :: rest =>
    if k = 0 then p :: rest
    else
      match p.position with
      | some _ => dropVisitable (k - 1) rest
      | none => dropVisitable k rest

/-- Concatenation of n copies of a tuple, used to state the padding rule. -/
def repTuple (n : ℕ) (t : List ℝ) : List ℝ :=
  match n with
  | 0 => []
  | n + 1 => t ++ repTuple n t

/-! ### Lemmas about the lane-point loops -/

theorem repTuple_length (n : ℕ) (t : List ℝ) : (repTuple n t).length = n * t.length := by
  induction n with
  | zero => simp [repTuple]
  | succ n ih => simp [repTuple, ih, Nat.succ_mul, Nat.add_comm]

theorem pointLoop_of_full {L : ℕ} {pos : ℝ × ℝ} {heading : ℝ} (pts : List LanePoint)
    (acc : List ℝ) (h : L ≤ acc.length) : pointLoop L pos heading pts acc = acc := by
  cases pts with
  | nil => rfl
  | cons p rest => simp [pointLoop, h]

theorem pointLoop_append {L : ℕ} {pos : ℝ × ℝ} {heading : ℝ} (a b : List LanePoint) :
    ∀ acc : List ℝ, pointLoop L pos heading (a ++ b) acc
      = pointLoop L pos heading b (pointLoop L pos heading a acc) := by
  induction a with
  | nil => intro acc; rfl
  | cons p a ih =>
    intro acc
    by_cases h : L ≤ acc.length
    · rw [pointLoop_of_full (p :: a) acc h, pointLoop_of_full ((p :: a) ++ b) acc h,
        pointLoop_of_full b acc h]
    · rw [List.cons_append]
      cases hp : p.position with
      | none => simp only [pointLoop, if_neg h, hp]; exact ih acc
      | some pp => simp only [pointLoop, if_neg h, hp]; exact ih _

theorem segLoop_eq_pointLoop {L : ℕ} {pos : ℝ × ℝ} {heading : ℝ} (segs : List LaneSegment) :
    ∀ acc : List ℝ, segLoop L pos heading segs acc
      = pointLoop L pos heading (flattenPoints segs) acc := by
  induction segs with
  | nil => intro acc; rfl
  | cons s rest ih =>
    intro acc
    by_cases h : L ≤ acc.length
    · rw [pointLoop_of_full _ acc h]
      cases rest <;> simp [segLoop, h]
    · simp only [segLoop, if_neg h, flattenPoints, pointLoop_append]
      exact ih _

theorem pointLoop_length {L : ℕ} {pos : ℝ × ℝ} {heading : ℝ} (hL : 4 ∣ L)
    (pts : List LanePoint) : ∀ acc : List ℝ, 4 ∣ acc.length → acc.length ≤ L →
    (pointLoop L pos heading pts acc).length = min L (acc.length + 4 * visCount pts) := by
  induction pts with
  | nil => intro acc _ hle; simp [pointLoop, visCount, Nat.min_eq_right hle]
  | cons p rest ih =>
    intro acc hdvd hle
    by_cases h : L ≤ acc.length
    · have : acc.length = L := Nat.le_antisymm hle h
      rw [pointLoop_of_full _ acc h, this]
      omega
    · cases hp : p.position with
      | none =>
        simp only [pointLoop, if_neg h, hp]
        rw [ih acc hdvd hle]
        simp [visCount, hp]
      | some pp =>
        simp only [pointLoop, if_neg h, hp]
        have hlen : (acc ++ [Real.sin (atan2 (pp.1 - pos.1) (pp.2 - pos.2) - heading),
            p.relative_l, p.heading, p.angle_diff]).length = acc.length + 4 := by
          simp
        have hdvd' : 4 ∣ acc.length + 4 := by omega
        have hle' : acc.length + 4 ≤ L := by omega
        rw [ih _ (by rw [hlen]; exact hdvd') (by rw [hlen]; exact hle')]
        rw [hlen]
        have : visCount (p :: rest) = 1 + visCount rest := by simp [visCount, hp]
        omega

theorem takeVisitable_append_dropVisitable (k : ℕ) (pts : List LanePoint) :
    takeVisitable k pts ++ dropVisitable k pts = pts := by
  induction pts generalizing k with
  | nil => simp [takeVisitable, dropVisitable]
  | cons p rest ih =>
    by_cases hk : k = 0
    · simp [takeVisitable, dropVisitable, hk]
    · cases hp : p.position with
      | none => simp only [takeVisitable, dropVisitable, if_neg hk, hp, List.cons_append,
          List.cons.injEq, true_and]; exact ih k
      | some pp => simp only [takeVisitable, dropVisitable, if_neg hk, hp, List.cons_append,
          List.cons.injEq, true_and]; exact ih (k - 1)

theorem visCount_takeVisitable (k : ℕ) (pts : List LanePoint) :
    visCount (takeVisitable k pts) = min k (visCount pts) := by
  induction pts generalizing k with
  | nil => simp [takeVisitable, visCount]
  | cons p rest ih =>
    by_cases hk : k = 0
    · simp [takeVisitable, visCount, hk]
    · cases hp : p.position with
      | none =>
        simp only [takeVisitable, if_neg hk, hp, visCount]
        rw [ih k]
        simp [visCount, hp]
      | some pp =>
        simp only [takeVisitable, if_neg hk, hp, visCount]
        rw [ih (k - 1)]
        simp only [visCount, hp, Option.isSome_some, if_pos]
        omega

/-! ### Lemmas about the padding loop -/

theorem last_four_eq_drop (vals : List ℝ) (h : 4 ≤ vals.length) :
    vals.drop (vals.length - 4) =
      [vals.getD (vals.length - 4) 0, vals.getD (vals.length - 3) 0,
       vals.getD (vals.length - 2) 0, vals.getD (vals.length - 1) 0] := by
  have h1 : vals.length - 4 < vals.length := by omega
  have h2 : vals.length - 3 < vals.length := by omega
  have h3 : vals.length - 2 < vals.length := by omega
  have h4 : vals.length - 1 < vals.length := by omega
  rw [List.drop_eq_getElem_cons h1]
  have e1 : vals.length - 4 + 1 = vals.length - 3 := by omega
  rw [e1, List.drop_eq_getElem_cons h2]
  have e2 : vals.length - 3 + 1 = vals.length - 2 := by omega
  rw [e2, List.drop_eq_getElem_cons h3]
  have e3 : vals.length - 2 + 1 = vals.length - 1 := by omega
  rw [e3, List.drop_eq_getElem_cons h4]
  have e4 : vals.length - 1 + 1 = vals.length := by omega
  rw [e4, List.drop_length]
  rw [List.getD_eq_getElem vals 0 h1, List.getD_eq_getElem vals 0 h2,
    List.getD_eq_getElem vals 0 h3, List.getD_eq_getElem vals 0 h4]

theorem padLoop_of_stop (L : ℕ) (vals : List ℝ)
    (h : ¬(4 ≤ vals.length ∧ vals.length < L)) : padLoop L vals = vals := by
  rw [padLoop, dif_neg h]

theorem padLoop_eq_repTuple (L : ℕ) :
    ∀ (n : ℕ) (vals : List ℝ), vals.length + 4 * n = L → 4 ≤ vals.length →
    padLoop L vals = vals ++ repTuple n (vals.drop (vals.length - 4)) := by
  intro n
  induction n with
  | zero =>
    intro vals hsum _
    rw [padLoop_of_stop L vals (by omega), repTuple, List.append_nil]
  | succ n ih =>
    intro vals hsum h4
    have hlt : vals.length < L := by omega
    rw [padLoop, dif_pos ⟨h4, hlt⟩]
    rw [← last_four_eq_drop vals h4]
    set t := vals.drop (vals.length - 4) with ht
    have htlen : t.length = 4 := by
      rw [ht, List.length_drop]; omega
    have hlen' : (vals ++ t).length = vals.length + 4 := by
      simp [htlen]
    rw [ih (vals ++ t) (by omega) (by omega)]
    have hdrop : (vals ++ t).drop ((vals ++ t).length - 4) = t := by
      rw [hlen']
      have : vals.length + 4 - 4 = vals.length := by omega
      rw [this, List.drop_left]
    rw [hdrop, List.append_assoc]
    rfl

theorem padLoop_length_of_dvd (L : ℕ) (vals : List ℝ) (hL : 4 ∣ L)
    (hdvd : 4 ∣ vals.length) (h4 : 4 ≤ vals.length) (hle : vals.length ≤ L) :
    (padLoop L vals).length = L := by
  obtain ⟨n, hn⟩ : ∃ n, vals.length + 4 * n = L := by
    obtain ⟨a, ha⟩ := hL
    obtain ⟨b, hb⟩ := hdvd
    exact ⟨a - b, by omega⟩
  rw [padLoop_eq_repTuple L n vals hn h4]
  rw [List.length_append, repTuple_length, List.length_drop]
  have he : vals.length - (vals.length - 4) = 4 := by omega
  rw [he]
  omega

/-! ### Lemmas about SetLaneFeatureValues -/

theorem setLaneFeatureValues_eq {kf : Bool} {L : ℕ} {ob : Obstacle} {seq : LaneSequence}
    {pos : ℝ × ℝ} (hinit : ob.latest_feature.isInitialized = true)
    (hpos : ob.latest_feature.position = some pos) :
    setLaneFeatureValues kf L ob seq =
      padLoop L (pointLoop L pos
        (if kf then ob.latest_feature.t_velocity_heading else ob.latest_feature.theta)
        (flattenPoints seq.lane_segment) []) := by
  simp only [setLaneFeatureValues, hinit, hpos, segLoop_eq_pointLoop]
  simp

theorem setLaneFeatureValues_empty_of_bad_pose {kf : Bool} {L : ℕ} {ob : Obstacle}
    {seq : LaneSequence}
    (h : ob.latest_feature.isInitialized = false ∨ ob.latest_feature.position = none) :
    setLaneFeatureValues kf L ob seq = [] := by
  rcases h with h | h
  · simp [setLaneFeatureValues, h]
  · by_cases hi : ob.latest_feature.isInitialized = false <;>
      simp [setLaneFeatureValues, h, hi]

theorem emitted_length {L : ℕ} {seq : LaneSequence}
    {pos : ℝ × ℝ} (hL : 4 ∣ L) (heading : ℝ) :
    (pointLoop L pos heading (flattenPoints seq.lane_segment) []).length
      = min L (4 * visCount (flattenPoints seq.lane_segment)) := by
  have := @pointLoop_length L pos heading hL
    (flattenPoints seq.lane_segment) [] (by simp) (by simp)
  simpa using this

/-- C4 (amended): for every obstacle whose latest feature is initialized and
has a position, and every lane-sequence hypothesis that yields at least one
emitted 4-tuple, SetLaneFeatureValues outputs exactly L scalars, the emitted
scalars followed by verbatim repetitions of the most recently emitted
4-tuple; if no lane point yields a 4-tuple the output is empty (in
particular shorter than L), and if the pose is missing or uninitialized the
output is empty. -/
theorem c4_lane_block_padding :
    (∀ (kf : Bool) (L : ℕ) (ob : Obstacle) (seq : LaneSequence) (pos : ℝ × ℝ)
       (emitted : List ℝ), 4 ∣ L →
       ob.latest_feature.isInitialized = true →
       ob.latest_feature.position = some pos →
       emitted = pointLoop L pos
         (if kf then ob.latest_feature.t_velocity_heading else ob.latest_feature.theta)
         (flattenPoints seq.lane_segment) [] →
       emitted ≠ [] →
       setLaneFeatureValues kf L ob seq
         = emitted ++ repTuple ((L - emitted.length) / 4)
             (emitted.drop (emitted.length - 4)) ∧
       (setLaneFeatureValues kf L ob seq).length = L) ∧
    (∀ (kf : Bool) (L : ℕ) (ob : Obstacle) (seq : LaneSequence) (pos : ℝ × ℝ),
       ob.latest_feature.isInitialized = true →
       ob.latest_feature.position = some pos →
       pointLoop L pos
         (if kf then ob.latest_feature.t_velocity_heading else ob.latest_feature.theta)
         (flattenPoints seq.lane_segment) [] = [] →
       setLaneFeatureValues kf L ob seq = []) ∧
    (∀ (kf : Bool) (L : ℕ) (ob : Obstacle) (seq : LaneSequence),
       ob.latest_feature.isInitialized = false ∨ ob.latest_feature.position = none →
       setLaneFeatureValues kf L ob seq = []) := by
  refine ⟨?_, ?_, ?_⟩
  · intro kf L ob seq pos emitted hL hinit hpos hemit hne
    have hlen : emitted.length = min L (4 * visCount (flattenPoints seq.lane_segment)) := by
      rw [hemit]; exact emitted_length hL _
    have hne' : emitted.length ≠ 0 := by
      simpa using List.length_pos.mpr hne |>.ne'
    have h4dvd : 4 ∣ emitted.length := by omega
    have h4le : 4 ≤ emitted.length := by omega
    have hle : emitted.length ≤ L := by omega
    have hsum : emitted.length + 4 * ((L - emitted.length) / 4) = L := by omega
    rw [setLaneFeatureValues_eq hinit hpos, ← hemit]
    exact ⟨padLoop_eq_repTuple L _ emitted hsum h4le,
      padLoop_length_of_dvd L emitted hL h4dvd h4le hle⟩
  · intro kf L ob seq pos hinit hpos hempty
    rw [setLaneFeatureValues_eq hinit hpos, hempty]
    exact padLoop_of_stop L [] (by simp)
  · intro kf L ob seq h
    exact setLaneFeatureValues_empty_of_bad_pose h

/-- C6: for every lane-sequence hypothesis with more than L/4 visitable lane
points (and a valid object pose), SetLaneFeatureValues emits exactly L
scalars, and its output is fully determined by the point stream up to and
including the point that fills the Lth scalar: any hypothesis agreeing on
that prefix yields the identical output, so no later point is ever read. -/
theorem c6_no_read_beyond_Lth (kf : Bool) (L : ℕ) (ob : Obstacle) (seq : LaneSequence)
    (pos : ℝ × ℝ) (hL : 4 ∣ L)
    (hinit : ob.latest_feature.isInitialized = true)
    (hpos : ob.latest_feature.position = some pos)
    (hvis : L / 4 < visCount (flattenPoints seq.lane_segment)) :
    (setLaneFeatureValues kf L ob seq).length = L ∧
    ∀ seq' : LaneSequence,
      takeVisitable (L / 4) (flattenPoints seq'.lane_segment)
        = takeVisitable (L / 4) (flattenPoints seq.lane_segment) →
      setLaneFeatureValues kf L ob seq' = setLaneFeatureValues kf L ob seq := by
  set hd := (if kf then ob.latest_feature.t_velocity_heading else ob.latest_feature.theta)
    with hhd
  have h44 : 4 * (L / 4) = L := Nat.mul_div_cancel' hL
  have hTvis : visCount (takeVisitable (L / 4) (flattenPoints seq.lane_segment)) = L / 4 := by
    rw [visCount_takeVisitable]; omega
  have hTlen : (pointLoop L pos hd
      (takeVisitable (L / 4) (flattenPoints seq.lane_segment)) []).length = L := by
    have := @pointLoop_length L pos hd hL
      (takeVisitable (L / 4) (flattenPoints seq.lane_segment)) [] (by simp) (by simp)
    rw [hTvis] at this
    simpa [h44] using this
  have key : ∀ pts : List LanePoint,
      takeVisitable (L / 4) pts = takeVisitable (L / 4) (flattenPoints seq.lane_segment) →
      pointLoop L pos hd pts []
        = pointLoop L pos hd (takeVisitable (L / 4) (flattenPoints seq.lane_segment)) [] := by
    intro pts hpts
    conv_lhs => rw [← takeVisitable_append_dropVisitable (L / 4) pts]
    rw [hpts, pointLoop_append]
    exact pointLoop_of_full _ _ (le_of_eq hTlen.symm)
  constructor
  · rw [setLaneFeatureValues_eq hinit hpos, ← hhd, key _ rfl,
      padLoop_of_stop L _ (by rw [hTlen]; omega), hTlen]
  · intro seq' hagree
    rw [setLaneFeatureValues_eq hinit hpos, setLaneFeatureValues_eq hinit hpos, ← hhd,
      key _ hagree, key _ rfl]

/-! ### Concrete fixtures (used by witnesses and counterexamples) -/

/-- Newest history record of the worked spec example (spec section 8.6):
heading offset 0.2, lateral offset 1.2, boundary distances 2.5 and 1.5. -/
def exLaneFeature1 : LaneFeatureProto :=
  { angle_diff := 0.2, lane_l := 1.2, dist_to_left_boundary := 2.5,
    dist_to_right_boundary := 1.5, lane_turn_type := 0 }

/-- Older history record of the worked spec example: heading offset 0.1,
lateral offset 1.0, boundary distances 3.0 and 2.0. -/
def exLaneFeature2 : LaneFeatureProto :=
  { angle_diff := 0.1, lane_l := 1.0, dist_to_left_boundary := 3.0,
    dist_to_right_boundary := 2.0, lane_turn_type := 0 }

/-- A lane point with a position and zero-valued scalar attributes. -/
def exPoint (x y : ℝ) : LanePoint :=
  { position := some (x, y), relative_l := 0, heading := 0, angle_diff := 0 }

/-- A hypothesis with no lane segments at all. -/
def exSeqEmpty : LaneSequence := { lane_segment := [] }

/-- A hypothesis with a single visitable lane point. -/
def exSeq1 : LaneSequence := { lane_segment := [{ lane_point := [exPoint 1 1] }] }

/-- A hypothesis with exactly two visitable lane points. -/
def exSeq2 : LaneSequence :=
  { lane_segment := [{ lane_point := [exPoint 1 1, exPoint 2 2] }] }

/-- A hypothesis with three visitable lane points. -/
def exSeq3 : LaneSequence :=
  { lane_segment := [{ lane_point := [exPoint 1 1, exPoint 2 2, exPoint 3 3] }] }

/-- A lane graph holding two hypotheses, the first without any point. -/
def exGraph : LaneGraph := { lane_sequence := [exSeqEmpty, exSeq2] }

/-- History record at timestamp 10 of the worked spec example (raw speed 3). -/
def histFeature1 : Feature :=
  { isInitialized := true, timestamp := 10, position := some (0, 0), theta := 0,
    t_velocity_heading := 0, speed := 3, t_speed := 3,
    lane := some { lane_feature := some exLaneFeature1, lane_graph := none } }

/-- History record at timestamp 9 of the worked spec example (raw speed 2). -/
def histFeature2 : Feature :=
  { isInitialized := true, timestamp := 9, position := some (0, 0), theta := 0,
    t_velocity_heading := 0, speed := 2, t_speed := 2,
    lane := some { lane_feature := some exLaneFeature2, lane_graph := none } }

/-- Latest feature of the example obstacle: initialized, at the origin, with
a lane association and lane graph. -/
def exLatestFeature : Feature :=
  { isInitialized := true, timestamp := 10, position := some (0, 0), theta := 0,
    t_velocity_heading := 0, speed := 3, t_speed := 3,
    lane := some { lane_feature := some exLaneFeature1, lane_graph := some exGraph } }

/-- The example obstacle: two-record history of the worked spec example. -/
def exObstacleG : Obstacle :=
  { id := 1, timestamp := 10, latest_feature := exLatestFeature,
    history := [histFeature1, histFeature2] }

/-- An obstacle with an empty history (zero usable windowed records). -/
def exObstacleNoHist : Obstacle :=
  { id := 2, timestamp := 10, latest_feature := exLatestFeature, history := [] }

/-- The default-constructed evaluator state: empty cache, empty scratch. -/
def initState : EvaluatorState := { obstacle_feature_values_map := [], feature_values := [] }

/-- Counterexample to C4 as stated: the example obstacle has an initialized
latest feature with a position, yet on a hypothesis with no lane point the
extractor returns an empty vector, not one of length L (here L = 8). -/
theorem c4_counterexample :
    exObstacleG.latest_feature.isInitialized = true ∧
    exObstacleG.latest_feature.position = some ((0 : ℝ), (0 : ℝ)) ∧
    setLaneFeatureValues false 8 exObstacleG exSeqEmpty = [] ∧
    (setLaneFeatureValues false 8 exObstacleG exSeqEmpty).length ≠ 8 := by
  have hempty : setLaneFeatureValues false 8 exObstacleG exSeqEmpty = [] := by
    rw [@setLaneFeatureValues_eq false 8 exObstacleG exSeqEmpty ((0 : ℝ), (0 : ℝ)) rfl rfl]
    have : flattenPoints exSeqEmpty.lane_segment = [] := rfl
    rw [this]
    exact padLoop_of_stop 8 _ (by simp [pointLoop])
  exact ⟨rfl, rfl, hempty, by rw [hempty]; simp⟩

/-- Witness for C4 (amended) at a concrete input: one visitable point, so
the single emitted 4-tuple is padded up to the full length 8. -/
theorem c4_witness : (setLaneFeatureValues false 8 exObstacleG exSeq1).length = 8 := by
  have hemit : pointLoop 8 ((0 : ℝ), (0 : ℝ))
      (if false then exObstacleG.latest_feature.t_velocity_heading
       else exObstacleG.latest_feature.theta)
      (flattenPoints exSeq1.lane_segment) [] ≠ [] := by
    simp [pointLoop, flattenPoints, exSeq1, exPoint]
  exact (c4_lane_block_padding.1 false 8 exObstacleG exSeq1 ((0 : ℝ), (0 : ℝ)) _
    (by norm_num) rfl rfl rfl hemit).2

/-- Witness for C6 at a concrete input: three visitable points exceed
8 / 4 = 2, and the output length is exactly 8. -/
theorem c6_witness :
    8 / 4 < visCount (flattenPoints exSeq3.lane_segment) ∧
    (setLaneFeatureValues false 8 exObstacleG exSeq3).length = 8 := by
  have hvis : 8 / 4 < visCount (flattenPoints exSeq3.lane_segment) := by
    simp [visCount, flattenPoints, exSeq3, exPoint]
  exact ⟨hvis, (c6_no_read_beyond_Lth false 8 exObstacleG exSeq3 ((0 : ℝ), (0 : ℝ))
    (by norm_num) rfl rfl hvis).1⟩

/-! ### ExtractFeatureValues and the cache -/

theorem extract_map_eq (kf : Bool) (L : ℕ) (predDur : ℝ) (ob : Obstacle)
    (seq : LaneSequence) (s : EvaluatorState) :
    (extractFeatureValues kf L predDur ob seq s).obstacle_feature_values_map
      = s.obstacle_feature_values_map := by
  simp only [extractFeatureValues]
  split
  · rfl
  · split <;> rfl

theorem foldl_extract_map (kf : Bool) (L : ℕ) (predDur : ℝ) (ob : Obstacle) :
    ∀ (seqs : List LaneSequence) (s : EvaluatorState),
    (seqs.foldl (fun st seq => extractFeatureValues kf L predDur ob seq st)
      s).obstacle_feature_values_map = s.obstacle_feature_values_map := by
  intro seqs
  induction seqs with
  | nil => intro s; rfl
  | cons q rest ih =>
    intro s
    rw [List.foldl_cons, ih, extract_map_eq]

theorem evaluateRun_map_empty (kf : Bool) (L : ℕ) (predDur : ℝ)
    (obOpt : Option Obstacle) (s : EvaluatorState) :
    ((evaluateRun kf L predDur obOpt s).1).obstacle_feature_values_map = [] := by
  cases obOpt with
  | none => rfl
  | some ob =>
    cases hii : ob.latest_feature.isInitialized with
    | false => simp [evaluateRun, hii, clearState]
    | true =>
      cases hl : ob.latest_feature.lane with
      | none => simp [evaluateRun, hii, hl, clearState]
      | some lane =>
        cases hg : lane.lane_graph with
        | none => simp [evaluateRun, hii, hl, hg, clearState]
        | some graph =>
          by_cases hz : graph.lane_sequence.length = 0
          · simp [evaluateRun, hii, hl, hg, hz, clearState]
          · simp [evaluateRun, hii, hl, hg, hz, foldl_extract_map, clearState]

/-- C10: the per-object feature cache never observes a hit: every reachable
evaluator state has an empty cache, every lookup in a reachable state
misses, every Evaluate call leaves the cache empty, ExtractFeatureValues
never inserts into the cache, and with an empty cache it recomputes the
object block afresh (it behaves as the always-recompute variant). -/
theorem c10_cache_never_hits :
    (∀ s : EvaluatorState, Reachable s → s.obstacle_feature_values_map = []) ∧
    (∀ (s : EvaluatorState) (ob : Obstacle), Reachable s →
       mapFind s.obstacle_feature_values_map ob.id = none) ∧
    (∀ (kf : Bool) (L : ℕ) (predDur : ℝ) (obOpt : Option Obstacle) (s : EvaluatorState),
       ((evaluateRun kf L predDur obOpt s).1).obstacle_feature_values_map = []) ∧
    (∀ (kf : Bool) (L : ℕ) (predDur : ℝ) (ob : Obstacle) (seq : LaneSequence)
       (s : EvaluatorState),
       (extractFeatureValues kf L predDur ob seq s).obstacle_feature_values_map
         = s.obstacle_feature_values_map) ∧
    (∀ (kf : Bool) (L : ℕ) (predDur : ℝ) (ob : Obstacle) (seq : LaneSequence)
       (s : EvaluatorState), s.obstacle_feature_values_map = [] →
       extractFeatureValues kf L predDur ob seq s = extractFresh kf L predDur ob seq s) := by
  have hreach : ∀ s : EvaluatorState, Reachable s → s.obstacle_feature_values_map = [] := by
    intro s h
    induction h with
    | init => rfl
    | clear _ => rfl
    | evaluate kf L predDur obOpt _ => exact evaluateRun_map_empty kf L predDur obOpt _
    | extract kf L predDur ob seq _ ih => rw [extract_map_eq]; exact ih
  refine ⟨hreach, ?_, evaluateRun_map_empty, extract_map_eq, ?_⟩
  · intro s ob h
    rw [hreach s h]
    rfl
  · intro kf L predDur ob seq s h
    unfold extractFeatureValues extractFresh
    simp [h, mapFind]

/-- Witness for C10 at the initial state: the cache is empty and lookup of
the example obstacle misses. -/
theorem c10_witness :
    initState.obstacle_feature_values_map = [] ∧
    mapFind initState.obstacle_feature_values_map exObstacleG.id = none :=
  ⟨c10_cache_never_hits.1 initState Reachable.init,
   c10_cache_never_hits.2.1 initState exObstacleG Reachable.init⟩

/-- C1: whenever the computed object block has length 14 (the cache missing,
as it always does in reachable states) and the lane block has length L,
ExtractFeatureValues sets the assembled vector to the lane block
concatenated with itself — 2*L scalars in which the object block does not
appear. -/
theorem c1_lane_block_duplicated (kf : Bool) (L : ℕ) (predDur : ℝ) (ob : Obstacle)
    (seq : LaneSequence) (s : EvaluatorState)
    (hfind : mapFind s.obstacle_feature_values_map ob.id = none)
    (hob : (setObstacleFeatureValues kf predDur ob).length = 14)
    (hlane : (setLaneFeatureValues kf L ob seq).length = L) :
    (extractFeatureValues kf L predDur ob seq s).feature_values
        = setLaneFeatureValues kf L ob seq ++ setLaneFeatureValues kf L ob seq ∧
    (extractFeatureValues kf L predDur ob seq s).feature_values.length = 2 * L := by
  have key : (extractFeatureValues kf L predDur ob seq s).feature_values
      = setLaneFeatureValues kf L ob seq ++ setLaneFeatureValues kf L ob seq := by
    simp [extractFeatureValues, hfind, hob, hlane, OBSTACLE_FEATURE_SIZE]
  exact ⟨key, by rw [key]; simp [hlane, two_mul]⟩

/-- C8: an obstacle whose windowed history walk collects zero usable records
gets an empty object block, and ExtractFeatureValues then leaves the
assembled vector empty for every hypothesis (skipped by the 14-length
check). -/
theorem c8_empty_history_skips (kf : Bool) (predDur : ℝ) (ob : Obstacle)
    (hrec : collectRecords kf (ob.timestamp - predDur) ob.history = []) :
    setObstacleFeatureValues kf predDur ob = [] ∧
    ∀ (L : ℕ) (seq : LaneSequence) (s : EvaluatorState),
      mapFind s.obstacle_feature_values_map ob.id = none →
      (extractFeatureValues kf L predDur ob seq s).feature_values = [] := by
  have hempty : setObstacleFeatureValues kf predDur ob = [] := by
    unfold setObstacleFeatureValues
    simp [hrec]
  refine ⟨hempty, ?_⟩
  intro L seq s hfind
  simp [extractFeatureValues, hfind, hempty, OBSTACLE_FEATURE_SIZE]

/-- Witness for C8: the obstacle with empty history yields an empty object
block and an empty assembled vector. -/
theorem c8_witness :
    collectRecords false (exObstacleNoHist.timestamp - 5) exObstacleNoHist.history = [] ∧
    setObstacleFeatureValues false 5 exObstacleNoHist = [] ∧
    (extractFeatureValues false 8 5 exObstacleNoHist exSeq2 initState).feature_values = [] := by
  have h := c8_empty_history_skips false 5 exObstacleNoHist rfl
  exact ⟨rfl, h.1, h.2 8 exSeq2 initState rfl⟩

/-! ### Evaluate orchestration -/

theorem hasForwardPass_map_extract (l : List ℕ) :
    hasForwardPass (l.map EvalAction.extractCall) = false := by
  induction l with
  | nil => rfl
  | cons i rest ih => simpa [hasForwardPass] using ih

/-- C9 (amended): Evaluate performs no per-hypothesis processing when the
obstacle is null, its latest feature is uninitialized, it has no lane, no
lane graph, or zero lane sequences (halting silently); when all these
preconditions hold it visits every hypothesis in order, building each
hypothesis's input vector via ExtractFeatureValues, with a failure in one
hypothesis skipping only that hypothesis (the fold visits every index
regardless); Evaluate itself never invokes the Forward-Pass Engine
(ComputeProbability is a separate call). -/
theorem c9_orchestration :
    (∀ (kf : Bool) (L : ℕ) (predDur : ℝ) (s : EvaluatorState),
       (evaluateRun kf L predDur none s).2 = []) ∧
    (∀ (kf : Bool) (L : ℕ) (predDur : ℝ) (ob : Obstacle) (s : EvaluatorState),
       ob.latest_feature.isInitialized = false →
       (evaluateRun kf L predDur (some ob) s).2 = []) ∧
    (∀ (kf : Bool) (L : ℕ) (predDur : ℝ) (ob : Obstacle) (s : EvaluatorState),
       ob.latest_feature.lane = none →
       (evaluateRun kf L predDur (some ob) s).2 = []) ∧
    (∀ (kf : Bool) (L : ℕ) (predDur : ℝ) (ob : Obstacle) (lane : Lane)
       (s : EvaluatorState),
       ob.latest_feature.lane = some lane → lane.lane_graph = none →
       (evaluateRun kf L predDur (some ob) s).2 = []) ∧
    (∀ (kf : Bool) (L : ℕ) (predDur : ℝ) (ob : Obstacle) (lane : Lane)
       (graph : LaneGraph) (s : EvaluatorState),
       ob.latest_feature.lane = some lane → lane.lane_graph = some graph →
       graph.lane_sequence = [] →
       (evaluateRun kf L predDur (some ob) s).2 = []) ∧
    (∀ (kf : Bool) (L : ℕ) (predDur : ℝ) (ob : Obstacle) (lane : Lane)
       (graph : LaneGraph) (s : EvaluatorState),
       ob.latest_feature.isInitialized = true →
       ob.latest_feature.lane = some lane → lane.lane_graph = some graph →
       graph.lane_sequence ≠ [] →
       (evaluateRun kf L predDur (some ob) s).2
         = (List.range graph.lane_sequence.length).map EvalAction.extractCall ∧
       (evaluateRun kf L predDur (some ob) s).1
         = graph.lane_sequence.foldl
             (fun st seq => extractFeatureValues kf L predDur ob seq st) (clearState s)) ∧
    (∀ (kf : Bool) (L : ℕ) (predDur : ℝ) (obOpt : Option Obstacle) (s : EvaluatorState),
       hasForwardPass (evaluateRun kf L predDur obOpt s).2 = false) := by
  have htrace : ∀ (kf : Bool) (L : ℕ) (predDur : ℝ) (obOpt : Option Obstacle)
      (s : EvaluatorState),
      (evaluateRun kf L predDur obOpt s).2 = [] ∨
      ∃ graph : LaneGraph, (evaluateRun kf L predDur obOpt s).2
        = (List.range graph.lane_sequence.length).map EvalAction.extractCall := by
    intro kf L predDur obOpt s
    cases obOpt with
    | none => exact Or.inl rfl
    | some ob =>
      cases hii : ob.latest_feature.isInitialized with
      | false => left; simp [evaluateRun, hii]
      | true =>
        cases hl : ob.latest_feature.lane with
        | none => left; simp [evaluateRun, hii, hl]
        | some lane =>
          cases hg : lane.lane_graph with
          | none => left; simp [evaluateRun, hii, hl, hg]
          | some graph =>
            by_cases hz : graph.lane_sequence.length = 0
            · left; simp [evaluateRun, hii, hl, hg, hz]
            · right; exact ⟨graph, by simp [evaluateRun, hii, hl, hg, hz]⟩
  refine ⟨?_, ?_, ?_, ?_, ?_, ?_, ?_⟩
  · intro kf L predDur s; rfl
  · intro kf L predDur ob s h; simp [evaluateRun, h]
  · intro kf L predDur ob s h
    cases hii : ob.latest_feature.isInitialized with
    | false => simp [evaluateRun, hii]
    | true => simp [evaluateRun, hii, h]
  · intro kf L predDur ob lane s hl hg
    cases hii : ob.latest_feature.isInitialized with
    | false => simp [evaluateRun, hii]
    | true => simp [evaluateRun, hii, hl, hg]
  · intro kf L predDur ob lane graph s hl hg hz
    cases hii : ob.latest_feature.isInitialized with
    | false => simp [evaluateRun, hii]
    | true => simp [evaluateRun, hii, hl, hg, hz]
  · intro kf L predDur ob lane graph s hii hl hg hz
    have hz' : ¬graph.lane_sequence.length = 0 := by
      simpa [List.length_eq_zero] using hz
    constructor
    · simp [evaluateRun, hii, hl, hg, hz']
    · simp [evaluateRun, hii, hl, hg, hz']
  · intro kf L predDur obOpt s
    rcases htrace kf L predDur obOpt s with h | ⟨graph, h⟩
    · rw [h]; rfl
    · rw [h]; exact hasForwardPass_map_extract _

/-- Counterexample to C9 as stated: on a valid obstacle with two hypotheses
the Evaluate trace consists of the two ExtractFeatureValues calls only —
the Forward-Pass Engine is never invoked by Evaluate. -/
theorem c9_counterexample :
    (evaluateRun false 8 5 (some exObstacleG) initState).2
      = [EvalAction.extractCall 0, EvalAction.extractCall 1] ∧
    hasForwardPass (evaluateRun false 8 5 (some exObstacleG) initState).2 = false := by
  have h : (evaluateRun false 8 5 (some exObstacleG) initState).2
      = [EvalAction.extractCall 0, EvalAction.extractCall 1] := by
    simp [evaluateRun, exObstacleG, exLatestFeature, exGraph, List.range_succ]
  exact ⟨h, by rw [h]; rfl⟩

/-- Witness for C9 (amended) at a concrete input: the preconditions hold and
every hypothesis of the two-hypothesis graph is visited in order, even
though the first hypothesis has no lane point (its extraction fails and is
skipped without aborting the second). -/
theorem c9_witness :
    (evaluateRun false 8 5 (some exObstacleG) initState).2
      = (List.range exGraph.lane_sequence.length).map EvalAction.extractCall := by
  exact (c9_orchestration.2.2.2.2.2.1 false 8 5 exObstacleG
    { lane_feature := some exLaneFeature1, lane_graph := some exGraph } exGraph initState
    rfl rfl rfl (by simp [exGraph])).1

/-! ### The 14-scalar obstacle feature vector -/

/-- C5: whenever the windowed history walk collects at least one usable
record, SetObstacleFeatureValues outputs exactly the 14-scalar ordered
vector [theta_filtered, theta_mean, theta_filtered - theta_mean, delta
theta of the newest two, lane_l_filtered, lane_l_mean, lane_l_filtered -
lane_l_mean, speed_mean, dist_left[newest], dist_left_rate, time_to_left,
dist_right[newest], dist_right_rate, time_to_right], where the filtered
values average the two newest samples (or take the single sample), the
time-to-boundary guards on |speed_lateral| > 0.05 with the 20-scaled
fallback, and the boundary rates use newest minus oldest over the timestamp
difference when at least two samples exist and 0 otherwise. -/
theorem map_getLast?_getD {α β : Type} (f : α → β) (a : α) (l : List α) (d : β) (e : α) :
    (List.map f (a :: l)).getLast?.getD d = f ((a :: l).getLast?.getD e) := by
  rw [List.getLast?_map]
  cases h : (a :: l).getLast? with
  | none => exact absurd (List.getLast?_eq_none_iff.mp h) (List.cons_ne_nil a l)
  | some x => rfl

theorem c5_obstacle_feature_vector (kf : Bool) (predDur : ℝ) (ob : Obstacle)
    (r : ObsRecord) (rest : List ObsRecord)
    (hrec : collectRecords kf (ob.timestamp - predDur) ob.history = r :: rest) :
    setObstacleFeatureValues kf predDur ob =
      (let recs := r :: rest
       let theta_mean := (recs.map (fun q => q.theta)).sum / (recs.length : ℝ)
       let theta_filtered : ℝ :=
         match rest with
         | [] => r.theta
         | r2 :: _ => (r.theta + r2.theta) / 2
       let delta_theta : ℝ :=
         match rest with
         | [] => r.theta
         | r2 :: _ => r.theta - r2.theta
       let lane_l_mean := (recs.map (fun q => q.lane_l)).sum / (recs.length : ℝ)
       let lane_l_filtered : ℝ :=
         match rest with
         | [] => r.lane_l
         | r2 :: _ => (r.lane_l + r2.lane_l) / 2
       let speed_mean := (recs.map (fun q => q.speed)).sum / (recs.length : ℝ)
       let speed_lateral := Real.sin theta_filtered * speed_mean
       let speed_sign : ℝ := if 0 < speed_lateral then 1 else -1
       let time_to_lb : ℝ :=
         if 0.05 < |speed_lateral| then r.dist_lb / speed_lateral
         else 20 * r.dist_lb * speed_sign
       let time_to_rb : ℝ :=
         if 0.05 < |speed_lateral| then -1 * r.dist_rb / speed_lateral
         else -20 * r.dist_rb * speed_sign
       let oldest := rest.getLastD r
       let dist_lb_rate : ℝ :=
         match rest with
         | [] => 0
         | _ :: _ => (r.dist_lb - oldest.dist_lb) / (r.ts - oldest.ts)
       let dist_rb_rate : ℝ :=
         match rest with
         | [] => 0
         | _ :: _ => (r.dist_rb - oldest.dist_rb) / (r.ts - oldest.ts)
       [theta_filtered, theta_mean, theta_filtered - theta_mean, delta_theta,
        lane_l_filtered, lane_l_mean, lane_l_filtered - lane_l_mean, speed_mean,
        r.dist_lb, dist_lb_rate, time_to_lb, r.dist_rb, dist_rb_rate, time_to_rb]) := by
  cases rest with
  | nil =>
    simp [setObstacleFeatureValues, hrec, List.sum_eq_foldl]
  | cons r2 rest' =>
    have h1 := map_getLast?_getD (fun q : ObsRecord => q.dist_lb) r2 rest' (0 : ℝ) r
    have h2 := map_getLast?_getD (fun q : ObsRecord => q.dist_rb) r2 rest' (0 : ℝ) r
    have h3 := map_getLast?_getD (fun q : ObsRecord => q.ts) r2 rest' (0 : ℝ) r
    simp only [List.map_cons] at h1 h2 h3
    simp [setObstacleFeatureValues, hrec, List.sum_eq_foldl, h1, h2, h3]

/-- Witness for C5: the two-record example of spec section 8.6.  The history
walk collects both records, and the extractor outputs exactly the stated
14-scalar vector; in particular both filtered values and means are 0.15 and
1.1, the boundary rates are -0.5, and the boundary times are
2.5 / (sin 0.15 * 2.5) and its sign-negated right mirror. -/
theorem c5_witness :
    collectRecords false (exObstacleG.timestamp - 5) exObstacleG.history
      = [⟨0.2, 1.2, 2.5, 1.5, 0, 3, 10⟩, ⟨0.1, 1.0, 3.0, 2.0, 0, 2, 9⟩] ∧
    setObstacleFeatureValues false 5 exObstacleG =
      [0.15, 0.15, 0, 0.1, 1.1, 1.1, 0, 2.5, 2.5, -0.5, 2.5 / (Real.sin 0.15 * 2.5),
       1.5, -0.5, -1 * 1.5 / (Real.sin 0.15 * 2.5)] := by
  have hrec : collectRecords false (exObstacleG.timestamp - 5) exObstacleG.history
      = [⟨0.2, 1.2, 2.5, 1.5, 0, 3, 10⟩, ⟨0.1, 1.0, 3.0, 2.0, 0, 2, 9⟩] := by
    norm_num [collectRecords, exObstacleG, histFeature1, histFeature2, exLaneFeature1,
      exLaneFeature2, DoubleCompare]
  refine ⟨hrec, ?_⟩
  have key := c5_obstacle_feature_vector false 5 exObstacleG
    ⟨0.2, 1.2, 2.5, 1.5, 0, 3, 10⟩ [⟨0.1, 1.0, 3.0, 2.0, 0, 2, 9⟩] hrec
  rw [key]
  have hs : (1 / 50 : ℝ) < Real.sin (3 / 20) := by
    have h := Real.sin_gt_sub_cube (show (0 : ℝ) < 3 / 20 by norm_num)
      (show (3 / 20 : ℝ) ≤ 1 by norm_num)
    nlinarith
  norm_num [List.getLastD]
  constructor <;>
    (intro h; exfalso; nlinarith [hs, le_abs_self (Real.sin (3 / 20) * (5 / 2))])

/-! ### Activation dispatch lemmas and forward-pass fixtures -/

theorem applyActivation_relu (x : ℝ) : applyActivation "relu" x = max 0 x := by
  unfold applyActivation Relu
  rw [if_pos rfl]

theorem applyActivation_sigmoid (x : ℝ) :
    applyActivation "sigmoid" x = 1 / (1 + Real.exp (-x)) := by
  unfold applyActivation Sigmoid
  rw [if_neg (by decide), if_pos rfl]

theorem applyActivation_tanh (x : ℝ) : applyActivation "tanh" x = Real.tanh x := by
  unfold applyActivation
  rw [if_neg (by decide), if_neg (by decide), if_pos rfl]

theorem applyActivation_fallback (t : String) (x : ℝ) (h1 : t ≠ "relu")
    (h2 : t ≠ "sigmoid") (h3 : t ≠ "tanh") :
    applyActivation t x = applyActivation "sigmoid" x := by
  unfold applyActivation
  rw [if_neg h1, if_neg h2, if_neg h3, if_neg (by decide), if_pos rfl]

/-- First layer of the two-layer fixture model: 1 input, 1 output, weight 1,
bias 0, relu activation. -/
def reluLayer1 : Layer :=
  { layer_input_dim := 1, layer_output_dim := 1, layer_input_weight := [[1]],
    layer_bias := [0], layer_activation_type := "relu" }

/-- Second layer of the two-layer fixture model: 1 input, 1 output, weight 1,
bias 1, relu activation. -/
def reluLayer2 : Layer :=
  { layer_input_dim := 1, layer_output_dim := 1, layer_input_weight := [[1]],
    layer_bias := [1], layer_activation_type := "relu" }

/-- A well-formed two-layer model (input dimension 1, identity
normalization) that exercises the handoff from one layer to the next. -/
def twoLayerModel : FnnVehicleModel :=
  { dim_input := 1, num_layer := 2, layer := [reluLayer1, reluLayer2],
    samples_mean := [0], samples_std := [1] }

/-- C2 (evaluation of the code at the failing input): on the two-layer
model with input [1], the source's layer loop returns 0 whereas the layer
propagation stated by the spec yields relu(1*relu(1*1+0)+1) = 2.  The
self-swap at line 291 leaves `layer_input` empty from the second layer on
and `layer_output` keeps the first layer's column, so the final size check
sees 2 entries and discards the result. -/
theorem c2_layer_propagation_bug :
    computeProbability twoLayerModel [1] = 0 ∧
    forwardPassSpec twoLayerModel [1] = 2 ∧
    computeProbability twoLayerModel [1] ≠ forwardPassSpec twoLayerModel [1] := by
  have h1 : computeProbability twoLayerModel [1] = 0 := by
    norm_num [computeProbability, runLayers, layerNeuron, preActivation, applyActivation_relu,
      Normalize, twoLayerModel, reluLayer1, reluLayer2, List.range_succ]
  have h2 : forwardPassSpec twoLayerModel [1] = 2 := by
    norm_num [forwardPassSpec, layerNeuron, preActivation, applyActivation_relu,
      Normalize, twoLayerModel, reluLayer1, reluLayer2, List.range_succ]
  exact ⟨h1, h2, by rw [h1, h2]; norm_num⟩

/-- C3 (evaluation of the code at the failing input): a feature vector of
the wrong length returns exactly 0; but the single-output postcondition is
tested on the accumulated outputs of all layers, so on the two-layer model
the probability degrades to 0 even though the last layer emits exactly one
scalar (the spec-intended result 2 is discarded). -/
theorem c3_error_handling_evaluation :
    computeProbability twoLayerModel [1, 2] = 0 ∧
    (twoLayerModel.layer.getLastD dummyLayer).layer_output_dim = 1 ∧
    computeProbability twoLayerModel [1] = 0 ∧
    forwardPassSpec twoLayerModel [1] ≠ 0 := by
  refine ⟨?_, rfl, ?_, ?_⟩
  · norm_num [computeProbability, twoLayerModel]
  · norm_num [computeProbability, runLayers, layerNeuron, preActivation, applyActivation_relu,
      Normalize, twoLayerModel, reluLayer1, reluLayer2, List.range_succ]
  · have h2 : forwardPassSpec twoLayerModel [1] = 2 := by
      norm_num [forwardPassSpec, layerNeuron, preActivation, applyActivation_relu,
        Normalize, twoLayerModel, reluLayer1, reluLayer2, List.range_succ]
    rw [h2]; norm_num

/-- C7: in the neuron computation, a layer declaring "relu" applies
max(0, x), "sigmoid" applies 1/(1+e^-x), "tanh" applies the standard
hyperbolic tangent, and any other activation string produces exactly the
same neuron output as "sigmoid". -/
theorem c7_activation_semantics :
    (∀ x : ℝ, applyActivation "relu" x = max 0 x) ∧
    (∀ x : ℝ, applyActivation "sigmoid" x = 1 / (1 + Real.exp (-x))) ∧
    (∀ x : ℝ, applyActivation "tanh" x = Real.tanh x) ∧
    (∀ (t : String) (x : ℝ), t ≠ "relu" → t ≠ "sigmoid" → t ≠ "tanh" →
       applyActivation t x = applyActivation "sigmoid" x) ∧
    (∀ (inp : List ℝ) (ly : Layer) (col : ℕ),
       ly.layer_activation_type ≠ "relu" → ly.layer_activation_type ≠ "sigmoid" →
       ly.layer_activation_type ≠ "tanh" →
       layerNeuron inp ly col
         = layerNeuron inp { ly with layer_activation_type := "sigmoid" } col) := by
  refine ⟨applyActivation_relu, applyActivation_sigmoid, applyActivation_tanh,
    applyActivation_fallback, ?_⟩
  intro inp ly col h1 h2 h3
  exact applyActivation_fallback ly.layer_activation_type (preActivation inp ly col) h1 h2 h3

/-- Witness for C7 at a concrete input: the unrecognized activation name
"elu" on a concrete layer produces the same neuron output as "sigmoid". -/
theorem c7_witness :
    applyActivation "elu" 1 = applyActivation "sigmoid" 1 ∧
    layerNeuron [1] { reluLayer2 with layer_activation_type := "elu" } 0
      = layerNeuron [1] { reluLayer2 with layer_activation_type := "sigmoid" } 0 :=
  ⟨c7_activation_semantics.2.2.2.1 "elu" 1 (by decide) (by decide) (by decide),
   c7_activation_semantics.2.2.2.2 [1] { reluLayer2 with layer_activation_type := "elu" } 0
     (by decide) (by decide) (by decide)⟩

theorem setObstacleFeatureValues_length (kf : Bool) (predDur : ℝ) (ob : Obstacle)
    (h : collectRecords kf (ob.timestamp - predDur) ob.history ≠ []) :
    (setObstacleFeatureValues kf predDur ob).length = 14 := by
  obtain ⟨r, rest, hrec⟩ : ∃ r rest,
      collectRecords kf (ob.timestamp - predDur) ob.history = r :: rest := by
    cases hc : collectRecords kf (ob.timestamp - predDur) ob.history with
    | nil => exact absurd hc h
    | cons a l => exact ⟨a, l, rfl⟩
  simp [setObstacleFeatureValues, hrec]

/-- Witness for C1 at a concrete input: the example obstacle yields a
14-scalar object block and an 8-scalar lane block for the two-point
hypothesis, and the assembled vector is the lane block concatenated with
itself. -/
theorem c1_witness :
    (setObstacleFeatureValues false 5 exObstacleG).length = 14 ∧
    (setLaneFeatureValues false 8 exObstacleG exSeq2).length = 8 ∧
    (extractFeatureValues false 8 5 exObstacleG exSeq2 initState).feature_values
      = setLaneFeatureValues false 8 exObstacleG exSeq2
        ++ setLaneFeatureValues false 8 exObstacleG exSeq2 := by
  have hcol : collectRecords false (exObstacleG.timestamp - 5) exObstacleG.history
      = [⟨0.2, 1.2, 2.5, 1.5, 0, 3, 10⟩, ⟨0.1, 1.0, 3.0, 2.0, 0, 2, 9⟩] := by
    norm_num [collectRecords, exObstacleG, histFeature1, histFeature2, exLaneFeature1,
      exLaneFeature2, DoubleCompare]
  have hob : (setObstacleFeatureValues false 5 exObstacleG).length = 14 :=
    setObstacleFeatureValues_length false 5 exObstacleG (by rw [hcol]; simp)
  have hlane : (setLaneFeatureValues false 8 exObstacleG exSeq2).length = 8 := by
    rw [@setLaneFeatureValues_eq false 8 exObstacleG exSeq2 ((0 : ℝ), (0 : ℝ)) rfl rfl]
    have hvc : visCount (flattenPoints exSeq2.lane_segment) = 2 := by
      simp [visCount, flattenPoints, exSeq2, exPoint]
    have hlen := @emitted_length 8 exSeq2 ((0 : ℝ), (0 : ℝ)) (by norm_num)
      (if false then exObstacleG.latest_feature.t_velocity_heading
       else exObstacleG.latest_feature.theta)
    rw [hvc] at hlen
    rw [padLoop_of_stop 8 _ (by rw [hlen]; norm_num), hlen]
    norm_num
  exact ⟨hob, hlane,
    (c1_lane_block_duplicated false 8 5 exObstacleG exSeq2 initState rfl hob hlane).1⟩

end MLPEval
